import Mathlib

/-!
Verification of the op_elo_backend rating-update and roster-synchronization
logic against its specification.

The embedding models the production request handlers of `src/scraper.js`
(lines 496-674, the variant with id validation, numeric validation and the
incremental UPDATE) together with the scraping pipeline of the same file.
The PostgreSQL `characters` table is modelled as a list of `Character`
records; one SQL statement becomes one pure transformation of that list,
so that a statement such as `UPDATE ... SET wins = wins + $1 ... WHERE id = $5`
is a single atomic step of the state, exactly as the storage engine applies it.
HTTP request bodies become association lists of field name to value, since
the handlers only inspect presence, numericity and key sets of the JSON body.
-/

namespace OpElo

/-- A row of the `characters` table (schema used by the INSERT in
`scrapeAndSaveCharacters` plus the generated `id` primary key). -/
structure Character where
  id : String
  first_name : String
  last_name : String
  title : String
  image_path : Option String
  elo : Int
  rank : Int
  recent_change : Int
  wins : Int
  losses : Int
deriving Repr, DecidableEq

/-- A JSON value of a request-body field, as far as the handlers inspect it:
`num n` is a value whose numeric coercion succeeds (`isNaN` is false) and
reads as the integer `n`; `nonNum` is a value for which `isNaN` is true. -/
inductive BodyVal where
  | num (n : Int)
  | nonNum (s : String)
deriving Repr, DecidableEq

/-- A JSON request body: field names with their values (keys are unique in
JSON objects; lookups take the first binding). -/
abbrev Body := List (String × BodyVal)

/-- Reading a field of the body: `some` when present (JS `=== undefined` is
false), `none` when absent. -/
def getField (body : Body) (f : String) : Option BodyVal :=
  (body.find? (fun p => p.1 == f)).map (fun p => p.2)

/-- JS `isNaN(v)` for a field that was read from the body: false for an
absent field is never asked, so `none` maps to `false` harmlessly. -/
def isNaNv : Option BodyVal → Bool
  | some (.nonNum _) => true
  | _ => false

/-- The integer a present numeric field stands for. After the handler's
presence and `isNaN` guards, the value is always of the form
`some (.num n)`; the other arms are unreachable there. -/
def numVal : Option BodyVal → Int
  | some (.num n) => n
  | _ => 0

/-- JS `String.prototype.trim` (strip leading and trailing whitespace),
written structurally over the character list. -/
def jsTrim (s : String) : String :=
  ⟨((s.toList.dropWhile Char.isWhitespace).reverse.dropWhile Char.isWhitespace).reverse⟩

/-- `calculateChange` of src/scraper.js lines 504-511: if both changes have
the same sign (both nonnegative, both nonpositive, zero compatible with
either) the trend accumulates, otherwise the new delta replaces it. -/
def calculateChange (eloChange recentChange : Int) : Int :=
  if (0 ≤ eloChange ∧ 0 ≤ recentChange) ∨ (eloChange ≤ 0 ∧ recentChange ≤ 0) then
    recentChange + eloChange
  else
    eloChange

/-- The allowed (and required) fields of PUT /characters/:id/elo
(src/scraper.js line 581). -/
def allowedFields : List String :=
  ["wins_change", "losses_change", "elo_change", "recent_change"]

/-- The constant message of the missing-fields 400 response
(src/scraper.js line 567). -/
def requiredFieldsMissingMsg : String :=
  "All fields are required: wins_change, losses_change, elo_change, recent_change"

/-- The response of the `updateCharacterElo` handler, by the branch taken
(src/scraper.js lines 549-630). Each constructor keeps the data the JSON
answer carries beyond its constant texts. -/
inductive EloResponse where
  | badId
  | missingFields (message : String)
  | nonNumeric
  | invalidFieldsResp (invalidFields : List String)
  | notFound (id : String)
  | ok (character : Character)
deriving Repr, DecidableEq

/-- The HTTP status each response branch is sent with. -/
def EloResponse.status : EloResponse → Nat
  | .badId => 400
  | .missingFields _ => 400
  | .nonNumeric => 400
  | .invalidFieldsResp _ => 400
  | .notFound _ => 404
  | .ok _ => 200

/-- The record-level effect of the handler's single SQL statement
`UPDATE characters SET wins = wins + $1, losses = losses + $2,
elo = elo + $3, recent_change = $4 WHERE id = $5` on one row. -/
def applyEloDeltas (wd ld ed lc : Int) (c : Character) : Character :=
  { c with wins := c.wins + wd, losses := c.losses + ld,
           elo := c.elo + ed, recent_change := lc }

/-- The whole-table effect of that UPDATE statement: every row matching the
id is changed, the others are untouched, in one atomic step. -/
def eloDbUpdate (id : String) (wd ld ed lc : Int) (db : List Character) :
    List Character :=
  db.map (fun c => if c.id == id then applyEloDeltas wd ld ed lc c else c)

/-- The `updateCharacterElo` handler of src/scraper.js lines 549-630:
id guard, required-fields guard, numeric guard, extra-fields guard, then the
atomic relative UPDATE with `RETURNING *`; the rows the UPDATE returned
decide between 404 and 200. Returns the response together with the table
state after the handler ran. -/
def updateCharacterElo (id : String) (body : Body) (db : List Character) :
    EloResponse × List Character :=
  let w := getField body "wins_change"
  let l := getField body "losses_change"
  let e := getField body "elo_change"
  let r := getField body "recent_change"
  if jsTrim id = "" then (.badId, db)
  else if w.isNone || l.isNone || e.isNone || r.isNone then
    (.missingFields requiredFieldsMissingMsg, db)
  else if isNaNv w || isNaNv l || isNaNv e || isNaNv r then
    (.nonNumeric, db)
  else
    let providedFields := body.map Prod.fst
    let invalidFields := providedFields.filter (fun f => !(allowedFields.contains f))
    if invalidFields.length > 0 then
      (.invalidFieldsResp invalidFields, db)
    else
      let last_change := calculateChange (numVal e) (numVal r)
      let newDb := eloDbUpdate id (numVal w) (numVal l) (numVal e) last_change db
      match newDb.filter (fun c => c.id == id) with
      | [] => (.notFound id, newDb)
      | c :: _ => (.ok c, newDb)

/-- `SELECT * FROM characters WHERE id = $1` on the modelled table: the
row with the given id, when one exists. -/
def findById (db : List Character) (i : String) : Option Character :=
  db.find? (fun c => c.id == i)

/-- Does `needle` occur at the head of `hay`? -/
def leadMatch : List Char → List Char → Bool
  | [], _ => true
  | _ :: _, [] => false
  | a :: as, b :: bs => a == b && leadMatch as bs

/-- Does `needle` occur anywhere in `hay`? -/
def hasRun (needle : List Char) : List Char → Bool
  | [] => leadMatch needle []
  | b :: bs => leadMatch needle (b :: bs) || hasRun needle bs

/-- Does an error message name the given field? -/
def mentionsField (msg f : String) : Bool :=
  hasRun f.toList msg.toList

/-- The required/allowed field names an error message names, in canonical
order: what a caller can read off the message about which fields are
concerned. -/
def fieldsMentioned (msg : String) : List String :=
  allowedFields.filter (fun f => mentionsField msg f)

/-! ## Roster synchronization (src/scraper.js lines 8-115) -/

/-- A normalized entry as `scrapeOnePieceCharacters` builds it (lines
46-56): the fields of the object pushed for each qualifying table row. -/
structure ScrapedChar where
  first_name : String
  last_name : String
  title : String
  image_path : Option String
  elo : Int
  rank : Int
  recent_change : Int
  wins : Int
  losses : Int
deriving Repr, DecidableEq

/-- The entity-attribute content of a stored record, forgetting the
generated identifier (for comparing inserted rows with fetched entries). -/
def toScraped (c : Character) : ScrapedChar :=
  { first_name := c.first_name, last_name := c.last_name, title := c.title,
    image_path := c.image_path, elo := c.elo, rank := c.rank,
    recent_change := c.recent_change, wins := c.wins, losses := c.losses }

/-- One `INSERT INTO characters (...) VALUES (...)`: the table's default
generates a fresh identifier — modelled by an identifier generator applied
to the insertion counter — and the entry's fields fill the row. -/
def insertCharacter (idGen : Nat → String) (k : Nat) (s : ScrapedChar) : Character :=
  { id := idGen k, first_name := s.first_name, last_name := s.last_name,
    title := s.title, image_path := s.image_path, elo := s.elo, rank := s.rank,
    recent_change := s.recent_change, wins := s.wins, losses := s.losses }

/-- The insertion loop of `scrapeAndSaveCharacters` (lines 91-106): one
INSERT per fetched entry, in order, each appending a row to the table. -/
def insertAll (idGen : Nat → String) : Nat → List ScrapedChar → List Character → List Character
  | _, [], db => db
  | k, s :: rest, db => insertAll idGen (k + 1) rest (db ++ [insertCharacter idGen k s])

/-- `scrapeAndSaveCharacters` (src/scraper.js lines 79-115) given the fetch
result: an empty scrape returns at once with no table mutation; otherwise
`DELETE FROM characters` empties the table and the loop inserts every
fetched entry. Returns the table state after the call together with the
function's return value (the scraped list, in both branches). -/
def scrapeAndSaveCharacters (idGen : Nat → String) (scraped : List ScrapedChar)
    (db : List Character) : List Character × List ScrapedChar :=
  if scraped.length = 0 then (db, scraped)
  else (insertAll idGen 0 scraped [], scraped)

/-! ## Image backfill (src/scraper.js lines 122-221 with the route handler
at lines 648-667) -/

/-- What fetching one character's individual wiki page yields:
`page thumb` is a fetched and parsed page whose first
`img.pi-image-thumbnail` element has source `thumb` (`none` when no such
element, or it has neither `src` nor `data-src`); `fetchError` is an axios
or parse error thrown during the request. -/
inductive FetchResult where
  | page (thumb : Option String)
  | fetchError (msg : String)
deriving Repr, DecidableEq

/-- `scrapeCharacterImage` (lines 122-156): returns the thumbnail source
when the page has one; returns null both when the page has no thumbnail
and when the fetch itself errors, since its own catch block converts the
error to a null return. Never throws. -/
def scrapeCharacterImage (fetch : String → FetchResult) (characterName : String) :
    Option String :=
  match fetch characterName with
  | .page (some url) => some url
  | .page none => none
  | .fetchError _ => none

/-- An observable step of the backfill loop: the rate-limiting wait and
the per-entity page fetch, in the order they happen. -/
inductive Event where
  | wait (ms : Int)
  | fetchPage (name : String)
deriving Repr, DecidableEq

/-- How the loop classifies one entity: `updated` when a thumbnail was
found and its UPDATE succeeded, `failed` when the body of the loop threw
(in this model: the UPDATE errored), `skipped` when no thumbnail came
back. -/
inductive ImgClass where
  | updated
  | skipped
  | failed
deriving Repr, DecidableEq

/-- The classification one entity receives, as a function of the fetch
outcomes and of which records' UPDATEs error. -/
def classifyImageOutcome (fetch : String → FetchResult) (dbFail : String → Bool)
    (c : Character) : ImgClass :=
  match scrapeCharacterImage fetch c.first_name with
  | some _ => if dbFail c.id then .failed else .updated
  | none => .skipped

/-- The summary `updateCharacterImages` returns (lines 206-212, timestamp
aside). -/
structure Summary where
  total : Nat
  updated : Nat
  skipped : Nat
  failed : Nat
deriving Repr, DecidableEq

/-- The loop state of `updateCharacterImages`: the table, the three
counters and the trace of waits and fetches so far. -/
structure ImgState where
  db : List Character
  updated : Nat
  skipped : Nat
  failed : Nat
  trace : List Event
deriving Repr, DecidableEq

/-- One iteration of the backfill loop (lines 178-204): wait when the
delay is positive, fetch the entity's page, then either update the row's
image_path (counting `updated`, or `failed` when the UPDATE throws) or
count the entity `skipped` when no image came back. -/
def updateOneImage (fetch : String → FetchResult) (dbFail : String → Bool)
    (delay : Int) (st : ImgState) (c : Character) : ImgState :=
  let tr := st.trace ++ (if 0 < delay then [Event.wait delay] else [])
      ++ [Event.fetchPage c.first_name]
  match scrapeCharacterImage fetch c.first_name with
  | some url =>
    if dbFail c.id then
      { st with failed := st.failed + 1, trace := tr }
    else
      { st with
        db := st.db.map (fun x =>
          if x.id == c.id then { x with image_path := some url } else x),
        updated := st.updated + 1, trace := tr }
  | none => { st with skipped := st.skipped + 1, trace := tr }

/-- `updateCharacterImages` (lines 164-221): reads the roster snapshot
(`SELECT id, first_name, image_path FROM characters ORDER BY first_name` —
`characters` is that snapshot, some ordering of the stored rows `db`),
iterates it sequentially, and returns the summary, the final table state
and the trace of waits and fetches. -/
def updateCharacterImages (fetch : String → FetchResult) (dbFail : String → Bool)
    (characters db : List Character) (delay : Int) :
    Summary × List Character × List Event :=
  let final := characters.foldl (updateOneImage fetch dbFail delay)
    { db := db, updated := 0, skipped := 0, failed := 0, trace := [] }
  ({ total := characters.length, updated := final.updated,
     skipped := final.skipped, failed := final.failed },
   final.db, final.trace)

/-- The delay the POST /update-character-images handler passes to the
backfill (line 651): `parseInt(request.query.delay) || 1000`. `none`
stands for an absent or unparsable parameter (`parseInt` yields NaN,
which is falsy); a parsed `0` is falsy in JS as well, so it also falls
back to the 1000ms default. -/
def routeDelay (q : Option Int) : Int :=
  match q with
  | none => 1000
  | some n => if n = 0 then 1000 else n

/-! ## Concrete sample data used by witnesses and counterexamples -/

def luffy : Character :=
  { id := "1", first_name := "Luffy", last_name := "", title := "",
    image_path := none, elo := 1000, rank := 1000, recent_change := 0,
    wins := 0, losses := 0 }

def zoro : Character :=
  { id := "2", first_name := "Zoro", last_name := "", title := "",
    image_path := none, elo := 1100, rank := 1000, recent_change := 3,
    wins := 4, losses := 1 }

def sampleDb : List Character := [luffy, zoro]

/-- A body carrying exactly the four required fields, numerically. -/
def fullBody : Body :=
  [("wins_change", .num 1), ("losses_change", .num 0),
   ("elo_change", .num 25), ("recent_change", .num 10)]

/-- A fetch in which every page request errors. -/
def errFetch : String → FetchResult := fun _ => .fetchError "network error"

/-- A fetch in which every page loads but carries no thumbnail element. -/
def bareFetch : String → FetchResult := fun _ => .page none

/-- A storage layer in which no UPDATE errors. -/
def noDbFail : String → Bool := fun _ => false

/-! # Theorems -/

/-- Claim C1: `calculateChange` returns the sum of the rating delta and the
prior trend when the two are sign-compatible (both at least 0 or both at
most 0, zero compatible with either sign) and the rating delta alone
otherwise; in particular the six tabulated merges hold. -/
theorem calculateChange_merge_rule :
    (∀ d t : Int, calculateChange d t =
      if (0 ≤ d ∧ 0 ≤ t) ∨ (d ≤ 0 ∧ t ≤ 0) then d + t else d)
    ∧ calculateChange 5 3 = 8 ∧ calculateChange (-5) (-3) = -8
    ∧ calculateChange 5 (-3) = 5 ∧ calculateChange (-5) 3 = -5
    ∧ calculateChange 0 7 = 7 ∧ calculateChange (-5) 0 = -5 := by
  refine ⟨fun d t => ?_, by decide, by decide, by decide, by decide, by decide, by decide⟩
  unfold calculateChange
  split <;> omega

/-- Claim C10: for a nonzero rating delta, the merged trend has the sign of
that delta and magnitude at least the magnitude of the delta — the stored
trend never opposes the most recent rating delta. -/
theorem calculateChange_sign_preserved (d t : Int) (hd : d ≠ 0) :
    Int.sign (calculateChange d t) = Int.sign d ∧ |d| ≤ |calculateChange d t| := by
  unfold calculateChange
  rcases lt_or_gt_of_ne hd with h | h
  · split
    · constructor
      · rw [Int.sign_eq_neg_one_iff_neg.mpr (by omega), Int.sign_eq_neg_one_iff_neg.mpr h]
      · rw [abs_of_nonpos (by omega), abs_of_nonpos (by omega)]; omega
    · simp
  · split
    · constructor
      · rw [Int.sign_eq_one_iff_pos.mpr (by omega), Int.sign_eq_one_iff_pos.mpr h]
      · rw [abs_of_nonneg (by omega), abs_of_nonneg (by omega)]; omega
    · simp

/-- Witness for C10 at the concrete input d = 5, t = -3. -/
theorem calculateChange_sign_preserved_witness :
    Int.sign (calculateChange 5 (-3)) = Int.sign 5 ∧
    |(5 : Int)| ≤ |calculateChange 5 (-3)| :=
  calculateChange_sign_preserved 5 (-3) (by decide)

/-! ## Lemmas about the modelled UPDATE statement -/

/-- The UPDATE preserves every row's identifier. -/
theorem applyEloDeltas_id (wd ld ed lc : Int) (c : Character) :
    (applyEloDeltas wd ld ed lc c).id = c.id := rfl

/-- A table in which no row matches the id is untouched by the UPDATE. -/
theorem eloDbUpdate_of_no_match (i : String) (wd ld ed lc : Int)
    (db : List Character) (h : ∀ c ∈ db, c.id ≠ i) :
    eloDbUpdate i wd ld ed lc db = db := by
  induction db with
  | nil => rfl
  | cons x xs ih =>
    simp only [eloDbUpdate, List.map_cons]
    rw [if_neg (by simp [h x (List.mem_cons_self x xs)])]
    have := ih (fun c hc => h c (List.mem_cons_of_mem x hc))
    simpa [eloDbUpdate] using this

/-- The UPDATE leaves the multiset of row identifiers unchanged. -/
theorem eloDbUpdate_map_id (i : String) (wd ld ed lc : Int) (db : List Character) :
    (eloDbUpdate i wd ld ed lc db).map Character.id = db.map Character.id := by
  unfold eloDbUpdate
  rw [List.map_map]
  apply List.map_congr_left
  intro c _
  by_cases h : (c.id == i) = true
  · simp [h, Function.comp, applyEloDeltas_id]
  · simp [h, Function.comp]

/-- With unique identifiers, the rows the UPDATE matched and returned are
exactly the one updated row. -/
theorem eloDbUpdate_filter_of_nodup (i : String) (wd ld ed lc : Int)
    (db : List Character) (c0 : Character) (hmem : c0 ∈ db) (hcid : c0.id = i)
    (hnd : (db.map Character.id).Nodup) :
    (eloDbUpdate i wd ld ed lc db).filter (fun c => c.id == i) =
      [applyEloDeltas wd ld ed lc c0] := by
  induction db with
  | nil => cases hmem
  | cons x xs ih =>
    rw [List.map_cons, List.nodup_cons] at hnd
    rcases List.mem_cons.mp hmem with rfl | hx
    · have hguard : (c0.id == i) = true := by simp [hcid]
      have hd : eloDbUpdate i wd ld ed lc (c0 :: xs) =
          applyEloDeltas wd ld ed lc c0 :: eloDbUpdate i wd ld ed lc xs := by
        simp only [eloDbUpdate, List.map_cons, if_pos hguard]
      rw [hd, List.filter_cons_of_pos (by simp [applyEloDeltas_id, hcid])]
      have htail : (eloDbUpdate i wd ld ed lc xs).filter (fun c => c.id == i) = [] := by
        rw [List.filter_eq_nil_iff]
        intro y hy hyi
        apply hnd.1
        have hmm : y.id ∈ (eloDbUpdate i wd ld ed lc xs).map Character.id :=
          List.mem_map.mpr ⟨y, hy, rfl⟩
        rw [eloDbUpdate_map_id] at hmm
        rwa [beq_iff_eq.mp hyi, ← hcid] at hmm
      rw [htail]
    · have hxid : x.id ≠ i := by
        intro hx0
        apply hnd.1
        have hmm : c0.id ∈ xs.map Character.id := List.mem_map.mpr ⟨c0, hx, rfl⟩
        rwa [hcid, ← hx0] at hmm
      have hd : eloDbUpdate i wd ld ed lc (x :: xs) =
          x :: eloDbUpdate i wd ld ed lc xs := by
        simp only [eloDbUpdate, List.map_cons]
        rw [if_neg (by simp [hxid])]
      rw [hd, List.filter_cons_of_neg (by simp [hxid])]
      exact ih hx hnd.2

/-- With a valid id and a body carrying the four required fields
numerically and no others, the handler reaches the UPDATE branch. -/
theorem updateCharacterElo_reaches_update (i : String) (body : Body)
    (db : List Character) (wd ld ed rd : Int)
    (hid : jsTrim i ≠ "")
    (hw : getField body "wins_change" = some (.num wd))
    (hl : getField body "losses_change" = some (.num ld))
    (he : getField body "elo_change" = some (.num ed))
    (hr : getField body "recent_change" = some (.num rd))
    (hkeys : ∀ f ∈ body.map Prod.fst, f ∈ allowedFields) :
    updateCharacterElo i body db =
      match (eloDbUpdate i wd ld ed (calculateChange ed rd) db).filter
          (fun c => c.id == i) with
      | [] => (.notFound i, eloDbUpdate i wd ld ed (calculateChange ed rd) db)
      | c :: _ => (.ok c, eloDbUpdate i wd ld ed (calculateChange ed rd) db) := by
  have hf : (body.map Prod.fst).filter (fun f => !(allowedFields.contains f)) = [] := by
    rw [List.filter_eq_nil_iff]
    intro f hfm hcontains
    rw [Bool.not_eq_true', ← Bool.not_eq_true] at hcontains
    exact hcontains (List.elem_eq_true_of_mem (hkeys f hfm))
  unfold updateCharacterElo
  rw [hw, hl, he, hr, if_neg hid]
  simp only [Option.isNone, isNaNv, numVal, Bool.or_self, Bool.false_or, if_false,
    Bool.false_eq_true, hf, List.length_nil, gt_iff_lt, lt_self_iff_false]

/-- Claim C2: a request carrying exactly the four numeric delta fields
performs one relative update — wins, losses and rating are incremented by
their deltas, never overwritten — sets recent_change to the merge of the
rating delta with the supplied prior trend, and returns the post-update
record; when no record matches the id it answers 404 and the table is
unchanged. -/
theorem updateCharacterElo_applies_deltas (i : String) (body : Body)
    (db : List Character) (wd ld ed rd : Int)
    (hid : jsTrim i ≠ "")
    (hw : getField body "wins_change" = some (.num wd))
    (hl : getField body "losses_change" = some (.num ld))
    (he : getField body "elo_change" = some (.num ed))
    (hr : getField body "recent_change" = some (.num rd))
    (hkeys : ∀ f ∈ body.map Prod.fst, f ∈ allowedFields) :
    (∀ c0, c0 ∈ db → c0.id = i → (db.map Character.id).Nodup →
      updateCharacterElo i body db =
        (EloResponse.ok (applyEloDeltas wd ld ed (calculateChange ed rd) c0),
         eloDbUpdate i wd ld ed (calculateChange ed rd) db))
    ∧ (∀ c0 : Character,
        (applyEloDeltas wd ld ed (calculateChange ed rd) c0).wins = c0.wins + wd
        ∧ (applyEloDeltas wd ld ed (calculateChange ed rd) c0).losses = c0.losses + ld
        ∧ (applyEloDeltas wd ld ed (calculateChange ed rd) c0).elo = c0.elo + ed
        ∧ (applyEloDeltas wd ld ed (calculateChange ed rd) c0).recent_change
            = calculateChange ed rd
        ∧ (applyEloDeltas wd ld ed (calculateChange ed rd) c0).id = c0.id)
    ∧ ((∀ c0 ∈ db, c0.id ≠ i) →
        updateCharacterElo i body db = (EloResponse.notFound i, db)) := by
  refine ⟨?_, fun c0 => ⟨rfl, rfl, rfl, rfl, rfl⟩, ?_⟩
  · intro c0 hmem hcid hnd
    rw [updateCharacterElo_reaches_update i body db wd ld ed rd hid hw hl he hr hkeys]
    rw [eloDbUpdate_filter_of_nodup i wd ld ed (calculateChange ed rd) db c0 hmem hcid hnd]
  · intro hnone
    rw [updateCharacterElo_reaches_update i body db wd ld ed rd hid hw hl he hr hkeys]
    have hsame := eloDbUpdate_of_no_match i wd ld ed (calculateChange ed rd) db hnone
    rw [hsame, List.filter_eq_nil_iff.mpr (fun c hc hci => hnone c hc (beq_iff_eq.mp hci))]

/-- Witness for C2 at a concrete request against the sample roster. -/
theorem updateCharacterElo_applies_deltas_witness :
    (∀ c0, c0 ∈ sampleDb → c0.id = "1" → (sampleDb.map Character.id).Nodup →
      updateCharacterElo "1" fullBody sampleDb =
        (EloResponse.ok (applyEloDeltas 1 0 25 (calculateChange 25 10) c0),
         eloDbUpdate "1" 1 0 25 (calculateChange 25 10) sampleDb))
    ∧ (∀ c0 : Character,
        (applyEloDeltas 1 0 25 (calculateChange 25 10) c0).wins = c0.wins + 1
        ∧ (applyEloDeltas 1 0 25 (calculateChange 25 10) c0).losses = c0.losses + 0
        ∧ (applyEloDeltas 1 0 25 (calculateChange 25 10) c0).elo = c0.elo + 25
        ∧ (applyEloDeltas 1 0 25 (calculateChange 25 10) c0).recent_change
            = calculateChange 25 10
        ∧ (applyEloDeltas 1 0 25 (calculateChange 25 10) c0).id = c0.id)
    ∧ ((∀ c0 ∈ sampleDb, c0.id ≠ "1") →
        updateCharacterElo "1" fullBody sampleDb = (EloResponse.notFound "1", sampleDb)) :=
  updateCharacterElo_applies_deltas "1" fullBody sampleDb 1 0 25 10
    (by decide) (by decide) (by decide) (by decide) (by decide) (by decide)

/-- A body in which exactly the required field wins_change is omitted. -/
def threeFieldBody : Body :=
  [("losses_change", .num 0), ("elo_change", .num 0), ("recent_change", .num 0)]

/-- Counterexample to C4 as stated: with wins_change the one omitted field,
the 400 response carries only the constant message naming all four required
fields, not a listing of exactly the omitted field. -/
theorem missing_field_not_listed_individually :
    (updateCharacterElo "1" threeFieldBody sampleDb).1
        = EloResponse.missingFields requiredFieldsMissingMsg
    ∧ fieldsMentioned requiredFieldsMissingMsg ≠ ["wins_change"]
    ∧ mentionsField requiredFieldsMissingMsg "losses_change" = true := by
  refine ⟨by decide, by decide, by decide⟩

/-- Claim C4 as amended: omitting a required field yields a 400
missing-fields error whose constant message names all four required fields
(not just the omitted one), the table is unchanged, and the error is
distinguishable from the unexpected-field error. -/
theorem updateCharacterElo_missing_field_generic (i : String) (body : Body)
    (db : List Character) (f : String)
    (hid : jsTrim i ≠ "") (hf : f ∈ allowedFields) (hmiss : getField body f = none) :
    updateCharacterElo i body db = (.missingFields requiredFieldsMissingMsg, db)
    ∧ (EloResponse.missingFields requiredFieldsMissingMsg).status = 400
    ∧ fieldsMentioned requiredFieldsMissingMsg = allowedFields
    ∧ ∀ fs, EloResponse.missingFields requiredFieldsMissingMsg
        ≠ EloResponse.invalidFieldsResp fs := by
  refine ⟨?_, rfl, by decide, fun fs h => by cases h⟩
  simp only [allowedFields, List.mem_cons, List.not_mem_nil, or_false] at hf
  unfold updateCharacterElo
  rcases hf with rfl | rfl | rfl | rfl <;>
    rw [hmiss, if_neg hid] <;> simp [Option.isNone]

/-- Witness for the amended C4 at the concrete omitted field wins_change. -/
theorem updateCharacterElo_missing_field_generic_witness :
    updateCharacterElo "1" threeFieldBody sampleDb
        = (.missingFields requiredFieldsMissingMsg, sampleDb)
    ∧ (EloResponse.missingFields requiredFieldsMissingMsg).status = 400
    ∧ fieldsMentioned requiredFieldsMissingMsg = allowedFields
    ∧ ∀ fs, EloResponse.missingFields requiredFieldsMissingMsg
        ≠ EloResponse.invalidFieldsResp fs :=
  updateCharacterElo_missing_field_generic "1" threeFieldBody sampleDb
    "wins_change" (by decide) (by decide) (by decide)

/-- A body containing only the extra field foo. -/
def fooOnlyBody : Body := [("foo", .num 1)]

/-- Counterexample to C5 as stated: when the required fields are absent,
a body containing the extra field foo is answered by the missing-fields
error, not by a 400 listing foo as invalid — the extra-field rule is not
independent of whether the required fields are present. -/
theorem extra_field_masked_by_missing_check :
    (updateCharacterElo "1" fooOnlyBody sampleDb).1
        = EloResponse.missingFields requiredFieldsMissingMsg
    ∧ (updateCharacterElo "1" fooOnlyBody sampleDb).1
        ≠ EloResponse.invalidFieldsResp ["foo"] := by
  refine ⟨by decide, by decide⟩

/-- Claim C5 as amended: when the four required fields are present and
numeric, a body containing the extra field foo is rejected with a 400
listing exactly the unexpected fields — foo among them — and the table is
unchanged; when a required field is missing, the missing-fields check
fires first instead. -/
theorem updateCharacterElo_extra_fields_rejected (i : String) (body : Body)
    (db : List Character) (wd ld ed rd : Int) (v : BodyVal)
    (hid : jsTrim i ≠ "")
    (hw : getField body "wins_change" = some (.num wd))
    (hl : getField body "losses_change" = some (.num ld))
    (he : getField body "elo_change" = some (.num ed))
    (hr : getField body "recent_change" = some (.num rd))
    (hfoo : ("foo", v) ∈ body) :
    (updateCharacterElo i body db).1 =
      EloResponse.invalidFieldsResp
        ((body.map Prod.fst).filter (fun f => !(allowedFields.contains f)))
    ∧ "foo" ∈ (body.map Prod.fst).filter (fun f => !(allowedFields.contains f))
    ∧ (updateCharacterElo i body db).2 = db
    ∧ (EloResponse.invalidFieldsResp
        ((body.map Prod.fst).filter (fun f => !(allowedFields.contains f)))).status
      = 400 := by
  have hmemfoo : "foo" ∈ (body.map Prod.fst).filter
      (fun f => !(allowedFields.contains f)) := by
    rw [List.mem_filter]
    exact ⟨List.mem_map.mpr ⟨("foo", v), hfoo, rfl⟩, by decide⟩
  have hpos : ((body.map Prod.fst).filter
      (fun f => !(allowedFields.contains f))).length > 0 :=
    List.length_pos.mpr (List.ne_nil_of_mem hmemfoo)
  unfold updateCharacterElo
  rw [hw, hl, he, hr, if_neg hid]
  simp only [Option.isNone, isNaNv, Bool.or_self, Bool.false_or, if_false,
    Bool.false_eq_true, if_pos hpos]
  exact ⟨trivial, hmemfoo, trivial, rfl⟩

/-- A body with the four required fields and the extra field foo. -/
def fooExtraBody : Body :=
  [("wins_change", .num 1), ("losses_change", .num 0),
   ("elo_change", .num 25), ("recent_change", .num 10), ("foo", .num 7)]

/-- Witness for the amended C5 at a concrete body carrying foo. -/
theorem updateCharacterElo_extra_fields_rejected_witness :
    (updateCharacterElo "1" fooExtraBody sampleDb).1 =
      EloResponse.invalidFieldsResp
        ((fooExtraBody.map Prod.fst).filter (fun f => !(allowedFields.contains f)))
    ∧ "foo" ∈ (fooExtraBody.map Prod.fst).filter (fun f => !(allowedFields.contains f))
    ∧ (updateCharacterElo "1" fooExtraBody sampleDb).2 = sampleDb
    ∧ (EloResponse.invalidFieldsResp
        ((fooExtraBody.map Prod.fst).filter (fun f => !(allowedFields.contains f)))).status
      = 400 :=
  updateCharacterElo_extra_fields_rejected "1" fooExtraBody sampleDb 1 0 25 10
    (.num 7) (by decide) (by decide) (by decide) (by decide) (by decide) (by decide)

/-- The wins column of the row matching an id, when the row exists. -/
def winsOf (db : List Character) (i : String) : Option Int :=
  (findById db i).map Character.wins

/-- One atomic relative UPDATE with winsDelta 1 increments the matched
row's wins by exactly one, whatever its other deltas are. -/
theorem winsOf_eloDbUpdate_one (i : String) (ld ed lc : Int) (db : List Character) :
    winsOf (eloDbUpdate i 1 ld ed lc db) i = (winsOf db i).map (· + 1) := by
  induction db with
  | nil => rfl
  | cons x xs ih =>
    by_cases h : (x.id == i) = true
    · have h2 : ((applyEloDeltas 1 ld ed lc x).id == i) = true := by
        rwa [applyEloDeltas_id]
      unfold winsOf findById eloDbUpdate
      rw [List.map_cons, if_pos h]
      simp only [List.find?, h2, h]
      rfl
    · have h2 : (x.id == i) = false := by simpa using h
      have hd : eloDbUpdate i 1 ld ed lc (x :: xs) = x :: eloDbUpdate i 1 ld ed lc xs := by
        simp only [eloDbUpdate, List.map_cons, if_neg h]
      rw [hd]
      unfold winsOf findById
      simp only [List.find?, h2]
      simpa [winsOf, findById] using ih

/-- Claim C3: any number of rating-update calls with winsDelta 1 against
the same record, each applied as the one atomic relative storage operation
the handler issues and interleaved in any order (each element of `calls`
carries the other parameters of one call), leave the record's wins at its
prior value plus the number of calls — no update is lost. This covers
every N of concurrent callers, in particular every N at least 2. -/
theorem concurrent_elo_updates_accumulate_wins (i : String)
    (calls : List (Int × Int × Int)) (db : List Character) (w0 : Int)
    (hw : winsOf db i = some w0) :
    winsOf (calls.foldl (fun d p => eloDbUpdate i 1 p.1 p.2.1 p.2.2 d) db) i
      = some (w0 + calls.length) := by
  induction calls generalizing db w0 with
  | nil => simpa using hw
  | cons p ps ih =>
    have hstep : winsOf (eloDbUpdate i 1 p.1 p.2.1 p.2.2 db) i = some (w0 + 1) := by
      rw [winsOf_eloDbUpdate_one, hw]
      rfl
    have := ih (eloDbUpdate i 1 p.1 p.2.1 p.2.2 db) (w0 + 1) hstep
    rw [List.foldl_cons, this, List.length_cons]
    congr 1
    push_cast
    ring

/-- Witness for C3: two concurrent calls with winsDelta 1 against record
"1" of the sample roster take its wins from 0 to 2. -/
theorem concurrent_elo_updates_accumulate_wins_witness :
    winsOf (([( (3 : Int), (25 : Int), (10 : Int)), ((0 : Int), (-7 : Int), (-7 : Int))]).foldl
        (fun d p => eloDbUpdate "1" 1 p.1 p.2.1 p.2.2 d) sampleDb) "1"
      = some (0 + ([( (3 : Int), (25 : Int), (10 : Int)),
          ((0 : Int), (-7 : Int), (-7 : Int))]).length) :=
  concurrent_elo_updates_accumulate_wins "1"
    [((3 : Int), (25 : Int), (10 : Int)), ((0 : Int), (-7 : Int), (-7 : Int))]
    sampleDb 0 (by decide)

/-- The insertion loop appends one fresh-id record per fetched entry, in
order, numbering identifiers from the insertion counter. -/
theorem insertAll_eq (idGen : Nat → String) :
    ∀ (scraped : List ScrapedChar) (k : Nat) (acc : List Character),
    insertAll idGen k scraped acc
      = acc ++ (List.enumFrom k scraped).map (fun p => insertCharacter idGen p.1 p.2) := by
  intro scraped
  induction scraped with
  | nil => intro k acc; simp [insertAll]
  | cons s rest ih =>
    intro k acc
    rw [insertAll, ih (k + 1) (acc ++ [insertCharacter idGen k s])]
    simp [List.enumFrom, List.append_assoc]

/-- Claim C6: when the scraper yields no entries, `scrapeAndSaveCharacters`
returns without touching the table; otherwise it deletes every existing
record and inserts every fetched entry as a new record carrying a fresh
generated identifier — the result does not depend on the prior table, has
one record per fetched entry, preserves the fetched content, and its
identifiers are exactly the freshly generated ones. -/
theorem scrapeAndSave_empty_guard_and_full_replace (idGen : Nat → String)
    (scraped : List ScrapedChar) (db : List Character) :
    (scraped = [] → scrapeAndSaveCharacters idGen scraped db = (db, scraped))
    ∧ (scraped ≠ [] →
        (scrapeAndSaveCharacters idGen scraped db).1
          = (List.enumFrom 0 scraped).map (fun p => insertCharacter idGen p.1 p.2)
        ∧ (∀ db2, (scrapeAndSaveCharacters idGen scraped db).1
            = (scrapeAndSaveCharacters idGen scraped db2).1)
        ∧ ((scrapeAndSaveCharacters idGen scraped db).1).length = scraped.length
        ∧ ((scrapeAndSaveCharacters idGen scraped db).1).map toScraped = scraped
        ∧ ((scrapeAndSaveCharacters idGen scraped db).1).map Character.id
            = (List.range scraped.length).map idGen) := by
  constructor
  · intro h
    subst h
    rfl
  · intro h
    have hlen : ¬(scraped.length = 0) := fun h0 => h (List.length_eq_zero.mp h0)
    have hval : (scrapeAndSaveCharacters idGen scraped db).1
        = (List.enumFrom 0 scraped).map (fun p => insertCharacter idGen p.1 p.2) := by
      unfold scrapeAndSaveCharacters
      rw [if_neg hlen]
      exact insertAll_eq idGen scraped 0 []
    refine ⟨hval, ?_, ?_, ?_, ?_⟩
    · intro db2
      rw [hval]
      unfold scrapeAndSaveCharacters
      rw [if_neg hlen]
      exact (insertAll_eq idGen scraped 0 []).symm
    · rw [hval, List.length_map, List.enumFrom_length]
    · rw [hval, List.map_map]
      have : (toScraped ∘ fun p => insertCharacter idGen p.1 p.2)
          = (Prod.snd : Nat × ScrapedChar → ScrapedChar) := by
        funext p
        rfl
      rw [this, List.enumFrom_map_snd]
    · rw [hval, List.map_map]
      have : (Character.id ∘ fun p => insertCharacter idGen p.1 p.2)
          = fun p : Nat × ScrapedChar => idGen p.1 := by
        funext p
        rfl
      rw [this]
      have h2 : (fun p : Nat × ScrapedChar => idGen p.1)
          = idGen ∘ Prod.fst := rfl
      rw [h2, ← List.map_map, List.enumFrom_map_fst, ← List.range_eq_range']

/-- One loop iteration adjusts exactly the counter of the class the entity
falls into. -/
theorem updateOneImage_counts (fetch : String → FetchResult) (dbFail : String → Bool)
    (delay : Int) (st : ImgState) (c : Character) :
    (updateOneImage fetch dbFail delay st c).updated
      = st.updated + (if classifyImageOutcome fetch dbFail c = ImgClass.updated then 1 else 0)
    ∧ (updateOneImage fetch dbFail delay st c).skipped
      = st.skipped + (if classifyImageOutcome fetch dbFail c = ImgClass.skipped then 1 else 0)
    ∧ (updateOneImage fetch dbFail delay st c).failed
      = st.failed + (if classifyImageOutcome fetch dbFail c = ImgClass.failed then 1 else 0) := by
  unfold updateOneImage classifyImageOutcome
  cases hsc : scrapeCharacterImage fetch c.first_name with
  | none => simp
  | some url => by_cases hdf : dbFail c.id = true <;> simp [hdf]

/-- Across the whole loop, each counter ends at its start value plus the
number of entities of its class. -/
theorem img_counts (fetch : String → FetchResult) (dbFail : String → Bool)
    (delay : Int) (cs : List Character) :
    ∀ st : ImgState,
    (cs.foldl (updateOneImage fetch dbFail delay) st).updated
      = st.updated + cs.countP (fun c => classifyImageOutcome fetch dbFail c == ImgClass.updated)
    ∧ (cs.foldl (updateOneImage fetch dbFail delay) st).skipped
      = st.skipped + cs.countP (fun c => classifyImageOutcome fetch dbFail c == ImgClass.skipped)
    ∧ (cs.foldl (updateOneImage fetch dbFail delay) st).failed
      = st.failed + cs.countP (fun c => classifyImageOutcome fetch dbFail c == ImgClass.failed) := by
  induction cs with
  | nil => intro st; simp
  | cons c cs ih =>
    intro st
    obtain ⟨hu, hs, hf⟩ := ih (updateOneImage fetch dbFail delay st c)
    obtain ⟨su, ss, sf⟩ := updateOneImage_counts fetch dbFail delay st c
    rw [List.foldl_cons]
    refine ⟨?_, ?_, ?_⟩
    · rw [hu, su, List.countP_cons]
      by_cases h : classifyImageOutcome fetch dbFail c = ImgClass.updated <;>
        simp [h] <;> omega
    · rw [hs, ss, List.countP_cons]
      by_cases h : classifyImageOutcome fetch dbFail c = ImgClass.skipped <;>
        simp [h] <;> omega
    · rw [hf, sf, List.countP_cons]
      by_cases h : classifyImageOutcome fetch dbFail c = ImgClass.failed <;>
        simp [h] <;> omega

/-- Every entity falls into exactly one of the three classes, so the three
class counts partition the batch. -/
theorem countP_classify_partition (fetch : String → FetchResult)
    (dbFail : String → Bool) (cs : List Character) :
    cs.countP (fun c => classifyImageOutcome fetch dbFail c == ImgClass.updated)
    + cs.countP (fun c => classifyImageOutcome fetch dbFail c == ImgClass.skipped)
    + cs.countP (fun c => classifyImageOutcome fetch dbFail c == ImgClass.failed)
    = cs.length := by
  induction cs with
  | nil => simp
  | cons c cs ih =>
    simp only [List.countP_cons, List.length_cons]
    rcases hcl : classifyImageOutcome fetch dbFail c <;> simp [hcl] <;> omega

/-- The trace the loop leaves: per entity, the optional rate-limiting wait
followed by the page fetch, in iteration order. -/
theorem img_trace (fetch : String → FetchResult) (dbFail : String → Bool)
    (delay : Int) (cs : List Character) :
    ∀ st : ImgState,
    (cs.foldl (updateOneImage fetch dbFail delay) st).trace
      = st.trace ++ cs.flatMap (fun c =>
          (if 0 < delay then [Event.wait delay] else []) ++ [Event.fetchPage c.first_name]) := by
  induction cs with
  | nil => intro st; simp
  | cons c cs ih =>
    intro st
    have hstep : (updateOneImage fetch dbFail delay st c).trace
        = st.trace ++ ((if 0 < delay then [Event.wait delay] else [])
            ++ [Event.fetchPage c.first_name]) := by
      unfold updateOneImage
      cases hsc : scrapeCharacterImage fetch c.first_name with
      | none => simp
      | some url => by_cases hdf : dbFail c.id = true <;> simp [hdf]
    rw [List.foldl_cons, ih (updateOneImage fetch dbFail delay st c), hstep]
    simp [List.append_assoc]

/-- Updating one row's image path never changes what a lookup of a
different id sees. -/
theorem findById_map_imgset (cU : String) (url : String) (cid : String)
    (h : cU ≠ cid) (db : List Character) :
    findById (db.map (fun x =>
        if x.id == cU then { x with image_path := some url } else x)) cid
      = findById db cid := by
  induction db with
  | nil => rfl
  | cons x xs ih =>
    by_cases hx : (x.id == cU) = true
    · have hxcid : (x.id == cid) = false := by
        simp only [beq_eq_false_iff_ne, ne_eq]
        intro h0
        exact h (by rw [← beq_iff_eq.mp hx, h0])
      unfold findById at *
      rw [List.map_cons, if_pos hx]
      simp only [List.find?, hxcid]
      exact ih
    · unfold findById at *
      rw [List.map_cons, if_neg hx]
      by_cases hxcid : (x.id == cid) = true
      · simp only [List.find?, hxcid]
      · simp only [List.find?, Bool.not_eq_true] at hxcid ⊢
        simp only [hxcid]
        exact ih

/-- Rows whose id no Updated-classified entity carries are untouched by the
whole loop. -/
theorem img_db_frame (fetch : String → FetchResult) (dbFail : String → Bool)
    (delay : Int) (cs : List Character) :
    ∀ (st : ImgState) (cid : String),
    (∀ c' ∈ cs, classifyImageOutcome fetch dbFail c' = ImgClass.updated → c'.id ≠ cid) →
    findById (cs.foldl (updateOneImage fetch dbFail delay) st).db cid
      = findById st.db cid := by
  induction cs with
  | nil => intro st cid _; rfl
  | cons c cs ih =>
    intro st cid hno
    rw [List.foldl_cons, ih _ cid (fun c' hc' => hno c' (List.mem_cons_of_mem c hc'))]
    unfold updateOneImage
    cases hsc : scrapeCharacterImage fetch c.first_name with
    | none => rfl
    | some url =>
      by_cases hdf : dbFail c.id = true
      · simp [hdf]
      · simp only [hdf, Bool.false_eq_true, if_false]
        have hcne : c.id ≠ cid := by
          apply hno c (List.mem_cons_self c cs)
          unfold classifyImageOutcome
          rw [hsc]
          simp [hdf]
        exact findById_map_imgset c.id url cid hcne st.db

/-- A member of a table with unique identifiers is what looking its id up
returns. -/
theorem findById_of_mem_nodup (db : List Character) (c : Character)
    (hc : c ∈ db) (hnd : (db.map Character.id).Nodup) :
    findById db c.id = some c := by
  induction db with
  | nil => cases hc
  | cons x xs ih =>
    rw [List.map_cons, List.nodup_cons] at hnd
    rcases List.mem_cons.mp hc with rfl | hx
    · unfold findById
      simp [List.find?]
    · have hxne : (x.id == c.id) = false := by
        simp only [beq_eq_false_iff_ne, ne_eq]
        intro h0
        exact hnd.1 (h0 ▸ List.mem_map.mpr ⟨c, hx, rfl⟩)
      unfold findById at *
      simp only [List.find?, hxne]
      exact ih hx hnd.2

/-- Counterexample to C7 as stated: a roster of one entity whose page fetch
errors ends with the failed counter at 0 and the skipped counter at 1 —
the fetch error is not classified Failed. -/
theorem fetch_error_counted_skipped_cex :
    (updateCharacterImages errFetch noDbFail [luffy] [luffy] 0).1
      = { total := 1, updated := 0, skipped := 1, failed := 0 }
    ∧ (updateCharacterImages errFetch noDbFail [luffy] [luffy] 0).1.failed ≠ 1 := by
  exact ⟨rfl, by decide⟩

/-- Claim C7 as amended: a fetch or parse error on one entity is caught
inside the image scraper, which returns null, so the entity is classified
Skipped — not Failed — with no mutation of its record; the failed counter
counts only storage-update errors; and no per-entity outcome aborts the
batch, whose three class counts always cover every entity. -/
theorem backfill_fetch_error_skipped_and_continues (fetch : String → FetchResult)
    (dbFail : String → Bool) (characters db : List Character) (delay : Int)
    (msg : String) (c : Character)
    (hperm : characters.Perm db) (hids : (db.map Character.id).Nodup)
    (hc : c ∈ db) (herr : fetch c.first_name = FetchResult.fetchError msg) :
    scrapeCharacterImage fetch c.first_name = none
    ∧ classifyImageOutcome fetch dbFail c = ImgClass.skipped
    ∧ classifyImageOutcome fetch dbFail c ≠ ImgClass.failed
    ∧ findById (updateCharacterImages fetch dbFail characters db delay).2.1 c.id = some c
    ∧ (updateCharacterImages fetch dbFail characters db delay).1.updated
        + (updateCharacterImages fetch dbFail characters db delay).1.skipped
        + (updateCharacterImages fetch dbFail characters db delay).1.failed
      = (updateCharacterImages fetch dbFail characters db delay).1.total := by
  have hsc : scrapeCharacterImage fetch c.first_name = none := by
    unfold scrapeCharacterImage
    rw [herr]
  have hcl : classifyImageOutcome fetch dbFail c = ImgClass.skipped := by
    unfold classifyImageOutcome
    rw [hsc]
  refine ⟨hsc, hcl, ?_, ?_, ?_⟩
  · rw [hcl]
    intro h
    cases h
  · simp only [updateCharacterImages]
    rw [img_db_frame]
    · exact findById_of_mem_nodup db c hc hids
    · intro c' hc' hup hcid
      have hc'db : c' ∈ db := hperm.mem_iff.mp hc'
      have : c' = c := List.inj_on_of_nodup_map hids hc'db hc hcid
      rw [this, hcl] at hup
      cases hup
  · simp only [updateCharacterImages]
    obtain ⟨hu, hs, hf⟩ := img_counts fetch dbFail delay characters
      { db := db, updated := 0, skipped := 0, failed := 0, trace := [] }
    simp only [hu, hs, hf, Nat.zero_add]
    exact countP_classify_partition fetch dbFail characters

/-- Witness for the amended C7: a two-entity roster in which the first
page fetch errors. -/
theorem backfill_fetch_error_skipped_and_continues_witness :
    scrapeCharacterImage errFetch luffy.first_name = none
    ∧ classifyImageOutcome errFetch noDbFail luffy = ImgClass.skipped
    ∧ classifyImageOutcome errFetch noDbFail luffy ≠ ImgClass.failed
    ∧ findById (updateCharacterImages errFetch noDbFail sampleDb sampleDb 0).2.1
        luffy.id = some luffy
    ∧ (updateCharacterImages errFetch noDbFail sampleDb sampleDb 0).1.updated
        + (updateCharacterImages errFetch noDbFail sampleDb sampleDb 0).1.skipped
        + (updateCharacterImages errFetch noDbFail sampleDb sampleDb 0).1.failed
      = (updateCharacterImages errFetch noDbFail sampleDb sampleDb 0).1.total :=
  backfill_fetch_error_skipped_and_continues errFetch noDbFail sampleDb sampleDb 0
    "network error" luffy (by decide) (by decide) (by decide) (by decide)

/-- Claim C8: every backfill summary partitions the batch — total equals
updated plus skipped plus failed — and an entity whose page has no
discoverable image is classified Skipped and keeps its record (its
image_path included) unchanged. -/
theorem backfill_summary_partition (fetch : String → FetchResult)
    (dbFail : String → Bool) (characters db : List Character) (delay : Int)
    (c : Character)
    (hperm : characters.Perm db) (hids : (db.map Character.id).Nodup)
    (hc : c ∈ db) (hnoimg : fetch c.first_name = FetchResult.page none) :
    (updateCharacterImages fetch dbFail characters db delay).1.total
      = (updateCharacterImages fetch dbFail characters db delay).1.updated
        + (updateCharacterImages fetch dbFail characters db delay).1.skipped
        + (updateCharacterImages fetch dbFail characters db delay).1.failed
    ∧ classifyImageOutcome fetch dbFail c = ImgClass.skipped
    ∧ findById (updateCharacterImages fetch dbFail characters db delay).2.1 c.id
        = some c := by
  have hsc : scrapeCharacterImage fetch c.first_name = none := by
    unfold scrapeCharacterImage
    rw [hnoimg]
  have hcl : classifyImageOutcome fetch dbFail c = ImgClass.skipped := by
    unfold classifyImageOutcome
    rw [hsc]
  refine ⟨?_, hcl, ?_⟩
  · simp only [updateCharacterImages]
    obtain ⟨hu, hs, hf⟩ := img_counts fetch dbFail delay characters
      { db := db, updated := 0, skipped := 0, failed := 0, trace := [] }
    simp only [hu, hs, hf, Nat.zero_add]
    exact (countP_classify_partition fetch dbFail characters).symm
  · simp only [updateCharacterImages]
    rw [img_db_frame]
    · exact findById_of_mem_nodup db c hc hids
    · intro c' hc' hup hcid
      have hc'db : c' ∈ db := hperm.mem_iff.mp hc'
      have : c' = c := List.inj_on_of_nodup_map hids hc'db hc hcid
      rw [this, hcl] at hup
      cases hup

/-- Witness for C8: a two-entity roster in which pages load but the first
carries no thumbnail. -/
theorem backfill_summary_partition_witness :
    (updateCharacterImages bareFetch noDbFail sampleDb sampleDb 1000).1.total
      = (updateCharacterImages bareFetch noDbFail sampleDb sampleDb 1000).1.updated
        + (updateCharacterImages bareFetch noDbFail sampleDb sampleDb 1000).1.skipped
        + (updateCharacterImages bareFetch noDbFail sampleDb sampleDb 1000).1.failed
    ∧ classifyImageOutcome bareFetch noDbFail luffy = ImgClass.skipped
    ∧ findById (updateCharacterImages bareFetch noDbFail sampleDb sampleDb 1000).2.1
        luffy.id = some luffy :=
  backfill_summary_partition bareFetch noDbFail sampleDb sampleDb 1000 luffy
    (by decide) (by decide) (by decide) (by decide)

/-- Lists of singletons flatten to a map. -/
theorem flatMap_single {α β : Type} (f : α → β) (l : List α) :
    l.flatMap (fun a => [f a]) = l.map f := by
  induction l with
  | nil => rfl
  | cons a l ih => simp [ih]

/-- Counterexample to C9 as stated: a delay query parameter of 0 does not
disable the wait — `parseInt(0) || 1000` falls back to the 1000ms default,
and the loop then waits 1000ms before the fetch. -/
theorem route_delay_zero_still_waits_cex :
    routeDelay (some 0) = 1000
    ∧ (updateCharacterImages bareFetch noDbFail [luffy] [luffy]
        (routeDelay (some 0))).2.2
      = [Event.wait 1000, Event.fetchPage "Luffy"]
    ∧ (updateCharacterImages bareFetch noDbFail [luffy] [luffy]
        (routeDelay (some 0))).2.2
      ≠ [Event.fetchPage "Luffy"] := by
  exact ⟨rfl, rfl, by decide⟩

/-- Claim C9 as amended: the backfill waits the inter-request delay before
each entity's fetch whenever the delay is positive, and a non-positive
delay disables the wait; the route's delay defaults to 1000ms when the
query parameter is absent or unparsable and is caller-configurable for any
nonzero value, but a query value of 0 is falsy in `parseInt(...) || 1000`
and falls back to the 1000ms default instead of disabling the wait. -/
theorem backfill_delay_behavior :
    routeDelay none = 1000
    ∧ (∀ n : Int, n ≠ 0 → routeDelay (some n) = n)
    ∧ routeDelay (some 0) = 1000
    ∧ (∀ (fetch : String → FetchResult) (dbFail : String → Bool)
        (characters db : List Character) (delay : Int), delay ≤ 0 →
        (updateCharacterImages fetch dbFail characters db delay).2.2
          = characters.map (fun c => Event.fetchPage c.first_name))
    ∧ (∀ (fetch : String → FetchResult) (dbFail : String → Bool)
        (characters db : List Character) (delay : Int), 0 < delay →
        (updateCharacterImages fetch dbFail characters db delay).2.2
          = characters.flatMap (fun c =>
              [Event.wait delay, Event.fetchPage c.first_name])) := by
  refine ⟨rfl, ?_, rfl, ?_, ?_⟩
  · intro n hn
    simp only [routeDelay]
    rw [if_neg hn]
  · intro fetch dbFail characters db delay hle
    simp only [updateCharacterImages]
    rw [img_trace, if_neg (by omega)]
    simp only [List.nil_append]
    exact flatMap_single (fun c => Event.fetchPage c.first_name) characters
  · intro fetch dbFail characters db delay hpos
    simp only [updateCharacterImages]
    rw [img_trace, if_pos hpos]
    rfl

end OpElo
